import Mathlib

/-!
go-instabot: retry, report rendering, configuration loading and mode dispatch

A shallow embedding of `util.go` (`retry`, `buildLine`, `buildReport`,
`getConfig`) and of `instabot.go` (`main`), with the properties of the
specification stated and proved over it.

Conventions of the embedding

* a Go `error` is an `Option String`: `none` is `nil`, `some m` is an error
  whose `Error()` text is `m`;
* Go `int` and `time.Duration` values are `Int`;
* the effects of a function (calls of the retried closure, `time.Sleep`,
  `log.Println`, `fmt.Println`, `send`) are recorded, in program order, in a
  list of `Event`s returned next to the result;
* the time a `time.Sleep(d)` takes is `d` for a positive `d` and nothing for
  `d ≤ 0`, as package `time` documents;
* the closure given to `retry` is a deterministic state machine
  `σ → GoError × σ`: the state `σ` stands for everything the closure captures;
* a Go `map` that is ranged over is the list of its entries in the order the
  `range` statement yields them (Go leaves this order unspecified, so every
  statement is proved for every order).
-/

namespace Instabot

/-! ## Data model -/

/-- A Go `error` value: `none` is `nil`, `some m` has `Error()` text `m`. -/
abbrev GoError := Option String

/-- The verb `%s` of package `fmt` applied to an `error` operand: the `Error()`
text, and `%!s(<nil>)` for the nil interface value. -/
def fmtS : GoError → String
  | none => "%!s(<nil>)"
  | some m => m

/-- The verb `%d` of package `fmt` applied to an `int`: its decimal text. -/
def fmtD (n : Int) : String :=
  toString n

/-- An observable effect. -/
inductive Event where
  /-- the closure handed to `retry` was invoked -/
  | call
  /-- `time.Sleep(d)` -/
  | sleep (d : Int)
  /-- `log.Println("Retrying after error:", err)` -/
  | logRetrying (err : String)
  /-- `log.Println(text)` -/
  | logPrintln (text : String)
  /-- `fmt.Println(text)` -/
  | fmtPrintln (text : String)
  /-- `send(body, success)` -/
  | send (body : String) (success : Bool)
  deriving DecidableEq, Repr

/-- The type `line` of `util.go`: the key of one line of the report. -/
structure line where
  Tag : String
  Action : String
  deriving DecidableEq, Repr

/-! ## `retry` -/

/-- What a call of `retry` leaves behind: the returned `error`, the state of
the closure, and the effects performed before the return, in order. -/
structure RetryResult (σ : Type) where
  err : GoError
  st : σ
  trace : List Event

/-- What the outer `for` loop of `retry` leaves behind: whether it was left by
the `return` inside it, the variable `err`, the state of the closure and the
effects performed. -/
structure LoopResult (σ : Type) where
  returned : Bool
  err : GoError
  st : σ
  trace : List Event

/-- The inner loop `for i := 0; i <= currentAttempt; i++ { time.Sleep(sleep) }`,
given the number of iterations still to run. -/
def sleepLoop (sleep : Int) : Nat → List Event
  | 0 => []
  | n + 1 => Event.sleep sleep :: sleepLoop sleep n

/-- The outer loop `for currentAttempt := 0; currentAttempt < maxAttempts;
currentAttempt++` of `retry`. The first argument is the number of iterations
the loop header still allows, `maxAttempts - currentAttempt`; `err` is the
current value of the named result. -/
def retryLoop {σ : Type} (sleep : Int) (function : σ → GoError × σ) :
    Nat → Nat → GoError → σ → LoopResult σ
  | 0, _, err, s => ⟨false, err, s, []⟩
  | remaining + 1, currentAttempt, _, s =>
    match function s with
    | (none, s1) => ⟨true, none, s1, [Event.call]⟩
    | (some e, s1) =>
      let rest := retryLoop sleep function remaining (currentAttempt + 1) (some e) s1
      ⟨rest.returned, rest.err, rest.st,
        Event.call :: (sleepLoop sleep (currentAttempt + 1)
          ++ Event.logRetrying e :: rest.trace)⟩

/-- The function `retry` of `util.go`. The loop runs while
`currentAttempt < maxAttempts` from `currentAttempt = 0`, that is at most
`maxAttempts.toNat` times. -/
def retry {σ : Type} (maxAttempts : Int) (sleep : Int) (function : σ → GoError × σ)
    (s : σ) : RetryResult σ :=
  let loop := retryLoop sleep function maxAttempts.toNat 0 none s
  if loop.returned then
    ⟨loop.err, loop.st, loop.trace⟩
  else
    ⟨some ("After " ++ fmtD maxAttempts ++ " attempts, last error: " ++ fmtS loop.err),
      loop.st,
      loop.trace ++
        [Event.send ("The script has stopped due to an unrecoverable error :\n"
          ++ fmtS loop.err) false]⟩

/-! ### Observations on closures and traces -/

/-- The state of the closure after `n` invocations from state `s`. -/
def stateAfter {σ : Type} (function : σ → GoError × σ) : Nat → σ → σ
  | 0, s => s
  | n + 1, s => stateAfter function n (function s).2

/-- The error returned by invocation number `i + 1` of the closure started in
state `s` (so `attempt function s 0` is the first attempt). -/
def attempt {σ : Type} (function : σ → GoError × σ) (s : σ) (i : Nat) : GoError :=
  (function (stateAfter function i s)).1

/-- Number of invocations of the closure in a trace. -/
def calls : List Event → Nat
  | [] => 0
  | Event.call :: tr => calls tr + 1
  | _ :: tr => calls tr

/-- Sum of the durations handed to `time.Sleep` in a trace. -/
def totalSleep : List Event → Int
  | [] => 0
  | Event.sleep d :: tr => d + totalSleep tr
  | _ :: tr => totalSleep tr

/-- The time one `time.Sleep(d)` pauses the caller, after the documentation of
package `time`: a negative or zero duration returns at once, a positive one
pauses for `d`. -/
def pause (d : Int) : Int :=
  if d ≤ 0 then 0 else d

/-- The time a trace spends in `time.Sleep`. -/
def timeSlept : List Event → Int
  | [] => 0
  | Event.sleep d :: tr => pause d + timeSlept tr
  | _ :: tr => timeSlept tr

/-- The `send` invocations of a trace, as (body, success) pairs, in order. -/
def sends : List Event → List (String × Bool)
  | [] => []
  | Event.send body success :: tr => (body, success) :: sends tr
  | _ :: tr => sends tr

/-- The effects of one failed attempt number `i + 1` with error text `e`: the
invocation, `i + 1` sleeps of `sleep`, and the log line. -/
def failedRound (sleep : Int) (i : Nat) (e : String) : List Event :=
  Event.call :: (List.replicate (i + 1) (Event.sleep sleep) ++ [Event.logRetrying e])

/-- The effects of `j` consecutive failed attempts of the closure started in
state `s`, the first of them being attempt number `c + 1` of the loop. -/
def failedRounds {σ : Type} (sleep : Int) (function : σ → GoError × σ) :
    Nat → Nat → σ → List Event
  | 0, _, _ => []
  | j + 1, c, s =>
    failedRound sleep c (fmtS (function s).1)
      ++ failedRounds sleep function j (c + 1) (function s).2

/-- A closure for the examples: it counts its invocations and fails with
`timeout` on the first two. -/
def flaky (n : Nat) : GoError × Nat :=
  (if n < 2 then some "timeout" else none, n + 1)

/-- A closure for the examples: it counts its invocations and fails on each,
with an error text that names the invocation. -/
def broken (n : Nat) : GoError × Nat :=
  (some (if n = 0 then "first" else if n = 1 then "second" else "later"), n + 1)

/-! ## Report rendering: `buildLine` and `buildReport` -/

/-- The function `strings.HasSuffix`: `len(s) >= len(suffix)` and the last
`len(suffix)` positions of `s` equal `suffix`. -/
def hasSuffix (s suffix : String) : Bool :=
  decide (suffix.length ≤ s.length) && (s.data.drop (s.length - suffix.length) == suffix.data)

/-- The function `strings.TrimSuffix`: `s` without the trailing `suffix` when
`s` ends with it, and `s` unchanged otherwise. -/
def trimSuffix (s suffix : String) : String :=
  if hasSuffix s suffix then ⟨s.data.take (s.length - suffix.length)⟩ else s

/-- The index expression `m[key]` on a Go `map[string]int`, the map given as
its list of entries: the stored value, and zero when the key is absent. -/
def mapIndex (m : List (String × Int)) (key : String) : Int :=
  (m.lookup key).getD 0

/-- The loop `for index, element := range report` of `buildLine`, over the
entries still to be visited, with the current value of `reportTag`. -/
def buildLineLoop (tag : String) (limits : List (String × Int)) :
    List (line × Int) → String → String
  | [], reportTag => reportTag
  | (index, element) :: rest, reportTag =>
    if index.Tag = tag then
      buildLineLoop tag limits rest
        (reportTag ++ (index.Action ++ " " ++ fmtD element ++ "/"
          ++ fmtD (mapIndex limits index.Action) ++ " - "))
    else
      buildLineLoop tag limits rest reportTag

/-- The function `buildLine` of `util.go`, on the globals `report`, `limits`
and `tag` it reads. -/
def buildLine (report : List (line × Int)) (limits : List (String × Int)) (tag : String) :
    List Event :=
  let reportTag := buildLineLoop tag limits report ""
  if reportTag ≠ "" then [Event.logPrintln (trimSuffix reportTag " - ")] else []

/-- The loop `for index, element := range report` of `buildReport`, over the
entries still to be visited, with the current value of `reportAsString`. -/
def buildReportLoop : List (line × Int) → String → String
  | [], reportAsString => reportAsString
  | (index, element) :: rest, reportAsString =>
    let times := if element = 1 then "time" else "times"
    if index.Action = "like" then
      buildReportLoop rest
        (reportAsString ++ ("#" ++ index.Tag ++ " has been liked " ++ fmtD element ++ " "
          ++ times ++ "\n"))
    else
      buildReportLoop rest
        (reportAsString ++ ("#" ++ index.Tag ++ " has been " ++ index.Action ++ "ed "
          ++ fmtD element ++ " " ++ times ++ "\n"))

/-- The function `buildReport` of `util.go`, on the global `report` it reads. -/
def buildReport (report : List (line × Int)) : List Event :=
  let reportAsString := buildReportLoop report ""
  [Event.fmtPrintln reportAsString, Event.send reportAsString true]

/-- The verb of a report sentence in the words of the specification: `liked`
for the action `like`, and the action followed by `ed` otherwise. -/
def specVerb (action : String) : String :=
  if action = "like" then "liked" else action ++ "ed"

/-- The unit of a report sentence in the words of the specification: `time`
exactly for the count one. -/
def specUnit (count : Int) : String :=
  if count = 1 then "time" else "times"

/-- The sentence of one report entry in the words of the specification, without
its line end. -/
def specSentence (entry : line × Int) : String :=
  "#" ++ entry.1.Tag ++ " has been " ++ specVerb entry.1.Action ++ " " ++ fmtD entry.2
    ++ " " ++ specUnit entry.2

/-- The segment of one report entry in a progress line, in the words of the
specification: action, count, a slash and the limit of the action. -/
def specSegment (limits : List (String × Int)) (entry : line × Int) : String :=
  entry.1.Action ++ " " ++ fmtD entry.2 ++ "/" ++ fmtD (mapIndex limits entry.1.Action)

/-- The entries of the report whose tag is `tag`, in iteration order. -/
def entriesOfTag (report : List (line × Int)) (tag : String) : List (line × Int) :=
  report.filter (fun entry => decide (entry.1.Tag = tag))

/-! ## Configuration loading: `getConfig` -/

/-- The package-level variables `getConfig` assigns that the limits live in,
and the report it creates. -/
structure Globals where
  likeLowerLimit : Int
  likeUpperLimit : Int
  followLowerLimit : Int
  followUpperLimit : Int
  commentLowerLimit : Int
  commentUpperLimit : Int
  report : List (line × Int)
  deriving DecidableEq, Repr

/-- The path handed to `viper.SetConfigFile`. -/
def configFile (dev : Bool) : String :=
  (if dev then "local" else "config") ++ "/config.json"

/-- The function `getConfig` of `util.go`. `files path` is what
`viper.ReadInConfig` makes of the file at `path`: an error text, or the
function `viper.GetInt` of the configuration read (environment overlay
included). A failed read ends the process through `log.Fatalf`, modelled as
`Except.error` with the logged text. -/
def getConfig (dev : Bool) (files : String → Except String (String → Int)) :
    Except String Globals :=
  match files (configFile dev) with
  | Except.error err => Except.error ("Error reading config file, " ++ err)
  | Except.ok getInt =>
    Except.ok
      { likeLowerLimit := getInt "limits.like.min"
        likeUpperLimit := getInt "limits.like.max"
        followLowerLimit := getInt "limits.follow.min"
        followUpperLimit := getInt "limits.follow.max"
        commentLowerLimit := getInt "limits.comment.min"
        commentUpperLimit := getInt "limits.comment.max"
        report := [] }

/-- The inclusive range `[lo, hi]` is a subset of the inclusive range
`[lo2, hi2]`. -/
def rangeWithin (lo hi lo2 hi2 : Int) : Prop :=
  ∀ n : Int, lo ≤ n → n ≤ hi → lo2 ≤ n ∧ n ≤ hi2

/-- The range nesting of the specification on a configuration: the follow
range and the comment range are subsets of the like range. -/
def limitsNested (getInt : String → Int) : Prop :=
  rangeWithin (getInt "limits.follow.min") (getInt "limits.follow.max")
      (getInt "limits.like.min") (getInt "limits.like.max")
    ∧ rangeWithin (getInt "limits.comment.min") (getInt "limits.comment.max")
      (getInt "limits.like.min") (getInt "limits.like.max")

/-- A configuration, as a key lookup, from its six limits. -/
def limitsConfig (likeMin likeMax followMin followMax commentMin commentMax : Int)
    (key : String) : Int :=
  if key = "limits.like.min" then likeMin
  else if key = "limits.like.max" then likeMax
  else if key = "limits.follow.min" then followMin
  else if key = "limits.follow.max" then followMax
  else if key = "limits.comment.min" then commentMin
  else if key = "limits.comment.max" then commentMax
  else 0

/-- A file system for the examples: every path holds the given configuration. -/
def readable (getInt : String → Int) (_path : String) : Except String (String → Int) :=
  Except.ok getInt

/-! ## Mode dispatch: `main` -/

/-- The functions `main` calls. -/
inductive Step where
  | parseOptions
  | getConfig
  | login
  | syncFollowers
  | loopTags
  | loopTagsMulti
  | updateConfig
  deriving DecidableEq, Repr

/-- The function `main` of `instabot.go`, as the sequence of functions it
calls when each of them returns, from the flags `unfollow` (set by `-sync`),
`run` and `randtag`. -/
def main (unfollow run randtag : Bool) : List Step :=
  [Step.parseOptions, Step.getConfig, Step.login]
    ++ (if unfollow then [Step.syncFollowers]
        else if run && !randtag then [Step.loopTags]
        else if run && randtag then [Step.loopTagsMulti]
        else [])
    ++ [Step.updateConfig]

/-- The three run modes among the functions `main` calls. -/
def Step.isRunMode : Step → Bool
  | Step.syncFollowers => true
  | Step.loopTags => true
  | Step.loopTagsMulti => true
  | _ => false

/-! ### Lemmas on traces -/

theorem sleepLoop_eq_replicate (sleep : Int) (n : Nat) :
    sleepLoop sleep n = List.replicate n (Event.sleep sleep) := by
  induction n with
  | zero => rfl
  | succ n ih => simp [sleepLoop, ih, List.replicate_succ]

theorem calls_append (a b : List Event) : calls (a ++ b) = calls a + calls b := by
  induction a with
  | nil => simp [calls]
  | cons x a ih => cases x <;> simp [calls, ih, Nat.add_right_comm]

theorem totalSleep_append (a b : List Event) :
    totalSleep (a ++ b) = totalSleep a + totalSleep b := by
  induction a with
  | nil => simp [totalSleep]
  | cons x a ih => cases x <;> simp [totalSleep, ih, add_assoc]

theorem sends_append (a b : List Event) : sends (a ++ b) = sends a ++ sends b := by
  induction a with
  | nil => simp [sends]
  | cons x a ih => cases x <;> simp [sends, ih]

theorem calls_replicate_sleep (d : Int) (n : Nat) :
    calls (List.replicate n (Event.sleep d)) = 0 := by
  induction n with
  | zero => rfl
  | succ n ih => simp [List.replicate_succ, calls, ih]

theorem sends_replicate_sleep (d : Int) (n : Nat) :
    sends (List.replicate n (Event.sleep d)) = [] := by
  induction n with
  | zero => rfl
  | succ n ih => simp [List.replicate_succ, sends, ih]

theorem totalSleep_replicate_sleep (d : Int) (n : Nat) :
    totalSleep (List.replicate n (Event.sleep d)) = d * n := by
  induction n with
  | zero => simp [totalSleep]
  | succ n ih =>
    simp only [List.replicate_succ, totalSleep, ih]
    push_cast
    ring

theorem calls_failedRound (d : Int) (i : Nat) (e : String) :
    calls (failedRound d i e) = 1 := by
  simp [failedRound, calls, calls_append, calls_replicate_sleep]

theorem sends_failedRound (d : Int) (i : Nat) (e : String) :
    sends (failedRound d i e) = [] := by
  simp [failedRound, sends, sends_append, sends_replicate_sleep]

theorem totalSleep_failedRound (d : Int) (i : Nat) (e : String) :
    totalSleep (failedRound d i e) = d * (i + 1) := by
  have h : failedRound d i e
      = [Event.call] ++ List.replicate (i + 1) (Event.sleep d) ++ [Event.logRetrying e] := by
    simp [failedRound]
  rw [h, totalSleep_append, totalSleep_append, totalSleep_replicate_sleep]
  simp [totalSleep]

theorem calls_failedRounds {σ : Type} (d : Int) (f : σ → GoError × σ) (j c : Nat) (s : σ) :
    calls (failedRounds d f j c s) = j := by
  induction j generalizing c s with
  | zero => rfl
  | succ j ih =>
    simp [failedRounds, calls_append, calls_failedRound, ih]
    omega

theorem sends_failedRounds {σ : Type} (d : Int) (f : σ → GoError × σ) (j c : Nat) (s : σ) :
    sends (failedRounds d f j c s) = [] := by
  induction j generalizing c s with
  | zero => rfl
  | succ j ih => simp [failedRounds, sends_append, sends_failedRound, ih]

theorem totalSleep_failedRounds {σ : Type} (d : Int) (f : σ → GoError × σ) (j c : Nat)
    (s : σ) :
    totalSleep (failedRounds d f j c s) = d * (∑ i in Finset.range j, ((c + i + 1 : Nat) : Int)) := by
  induction j generalizing c s with
  | zero => simp [failedRounds, totalSleep]
  | succ j ih =>
    rw [failedRounds, totalSleep_append, totalSleep_failedRound, ih, Finset.sum_range_succ']
    have : ∀ i : Nat, ((c + 1 + i + 1 : Nat) : Int) = ((c + (i + 1) + 1 : Nat) : Int) := by
      intro i; congr 1; omega
    simp only [this]
    push_cast
    ring

theorem timeSlept_append (a b : List Event) :
    timeSlept (a ++ b) = timeSlept a + timeSlept b := by
  induction a with
  | nil => simp [timeSlept]
  | cons x a ih => cases x <;> simp [timeSlept, ih, add_assoc]

theorem timeSlept_replicate_sleep (d : Int) (n : Nat) :
    timeSlept (List.replicate n (Event.sleep d)) = pause d * n := by
  induction n with
  | zero => simp [timeSlept]
  | succ n ih =>
    simp only [List.replicate_succ, timeSlept, ih]
    push_cast
    ring

theorem timeSlept_failedRound (d : Int) (i : Nat) (e : String) :
    timeSlept (failedRound d i e) = pause d * (i + 1) := by
  have h : failedRound d i e
      = [Event.call] ++ List.replicate (i + 1) (Event.sleep d) ++ [Event.logRetrying e] := by
    simp [failedRound]
  rw [h, timeSlept_append, timeSlept_append, timeSlept_replicate_sleep]
  simp [timeSlept]

theorem timeSlept_failedRounds {σ : Type} (d : Int) (f : σ → GoError × σ) (j c : Nat)
    (s : σ) :
    timeSlept (failedRounds d f j c s)
      = pause d * (∑ i in Finset.range j, ((c + i + 1 : Nat) : Int)) := by
  induction j generalizing c s with
  | zero => simp [failedRounds, timeSlept]
  | succ j ih =>
    rw [failedRounds, timeSlept_append, timeSlept_failedRound, ih, Finset.sum_range_succ']
    have : ∀ i : Nat, ((c + 1 + i + 1 : Nat) : Int) = ((c + (i + 1) + 1 : Nat) : Int) := by
      intro i; congr 1; omega
    simp only [this]
    push_cast
    ring

theorem pause_of_nonneg (d : Int) (hd : 0 ≤ d) : pause d = d := by
  unfold pause
  split
  · omega
  · rfl

theorem attempt_zero {σ : Type} (f : σ → GoError × σ) (s : σ) :
    attempt f s 0 = (f s).1 := rfl

theorem attempt_succ {σ : Type} (f : σ → GoError × σ) (s : σ) (i : Nat) :
    attempt f s (i + 1) = attempt f (f s).2 i := rfl

theorem failedRounds_eq_range {σ : Type} (d : Int) (f : σ → GoError × σ) (j c : Nat) (s : σ) :
    failedRounds d f j c s
      = ((List.range j).map (fun i => failedRound d (c + i) (fmtS (attempt f s i)))).flatten := by
  induction j generalizing c s with
  | zero => rfl
  | succ j ih =>
    rw [failedRounds, ih, List.range_succ_eq_map]
    simp only [List.map_cons, List.flatten_cons, List.map_map, attempt_zero, Nat.add_zero]
    congr 2
    apply List.map_congr_left
    intro i _
    simp only [Function.comp, attempt_succ]
    congr 1
    omega

/-! ### The two ways the loop of `retry` ends -/

theorem retryLoop_success {σ : Type} (d : Int) (f : σ → GoError × σ) (j : Nat) :
    ∀ (r c : Nat) (e0 : GoError) (s : σ), j < r →
      (∀ i, i < j → attempt f s i ≠ none) → attempt f s j = none →
      retryLoop d f r c e0 s
        = ⟨true, none, stateAfter f (j + 1) s, failedRounds d f j c s ++ [Event.call]⟩ := by
  induction j with
  | zero =>
    intro r c e0 s hr _ hs
    obtain ⟨r, rfl⟩ : ∃ r1, r = r1 + 1 := ⟨r - 1, by omega⟩
    rw [attempt_zero] at hs
    rcases hfs : f s with ⟨e, s1⟩
    rw [hfs] at hs
    simp only at hs
    subst hs
    simp [retryLoop, hfs, failedRounds, stateAfter]
  | succ j ih =>
    intro r c e0 s hr hf hs
    obtain ⟨r, rfl⟩ : ∃ r1, r = r1 + 1 := ⟨r - 1, by omega⟩
    have h0 := hf 0 (by omega)
    rw [attempt_zero] at h0
    rcases hfs : f s with ⟨e, s1⟩
    rw [hfs] at h0
    cases e with
    | none => exact absurd rfl h0
    | some e =>
      have hrec := ih r (c + 1) (some e) s1 (by omega)
        (fun i hi => by
          have := hf (i + 1) (by omega)
          rwa [attempt_succ, hfs] at this)
        (by rwa [attempt_succ, hfs] at hs)
      simp [retryLoop, hfs, hrec, failedRounds, stateAfter, failedRound, sleepLoop_eq_replicate,
        fmtS]

theorem retryLoop_failure {σ : Type} (d : Int) (f : σ → GoError × σ) (r : Nat) :
    ∀ (c : Nat) (e0 : GoError) (s : σ), (∀ i, i < r → attempt f s i ≠ none) →
      retryLoop d f r c e0 s
        = ⟨false, if r = 0 then e0 else attempt f s (r - 1), stateAfter f r s,
            failedRounds d f r c s⟩ := by
  induction r with
  | zero => intro c e0 s _; rfl
  | succ r ih =>
    intro c e0 s hf
    have h0 := hf 0 (by omega)
    rw [attempt_zero] at h0
    rcases hfs : f s with ⟨e, s1⟩
    rw [hfs] at h0
    cases e with
    | none => exact absurd rfl h0
    | some e =>
      have hrec := ih (c + 1) (some e) s1
        (fun i hi => by
          have := hf (i + 1) (by omega)
          rwa [attempt_succ, hfs] at this)
      have hlast : (if r = 0 then some e else attempt f s1 (r - 1)) = attempt f s r := by
        cases r with
        | zero => simp [attempt_zero, hfs]
        | succ r => simp [attempt_succ, hfs]
      simp [retryLoop, hfs, hrec, failedRounds, stateAfter, failedRound, sleepLoop_eq_replicate,
        fmtS, hlast]

/-- Either some attempt among the first `r` succeeds, and then there is a first
one, or all of them fail. -/
theorem first_success_or_all_fail {σ : Type} (f : σ → GoError × σ) (s : σ) (r : Nat) :
    (∃ j, j < r ∧ (∀ i, i < j → attempt f s i ≠ none) ∧ attempt f s j = none)
      ∨ (∀ i, i < r → attempt f s i ≠ none) := by
  by_cases h : ∃ j, j < r ∧ attempt f s j = none
  · left
    refine ⟨Nat.find h, (Nat.find_spec h).1, ?_, (Nat.find_spec h).2⟩
    intro i hi hnone
    exact Nat.find_min h hi ⟨lt_trans hi (Nat.find_spec h).1, hnone⟩
  · right
    intro i hi hnone
    exact h ⟨i, hi, hnone⟩

/-- The whole of `retry` when attempt `j + 1` is the first to succeed and the
loop reaches it. -/
theorem retry_of_success {σ : Type} (maxAttempts d : Int) (f : σ → GoError × σ) (s : σ)
    (j : Nat) (hj : j < maxAttempts.toNat) (hf : ∀ i, i < j → attempt f s i ≠ none)
    (hs : attempt f s j = none) :
    retry maxAttempts d f s
      = ⟨none, stateAfter f (j + 1) s, failedRounds d f j 0 s ++ [Event.call]⟩ := by
  simp [retry, retryLoop_success d f j maxAttempts.toNat 0 none s hj hf hs]

/-- The whole of `retry` when every attempt the loop makes fails. -/
theorem retry_of_failure {σ : Type} (maxAttempts d : Int) (f : σ → GoError × σ) (s : σ)
    (hf : ∀ i, i < maxAttempts.toNat → attempt f s i ≠ none) :
    retry maxAttempts d f s
      = ⟨some ("After " ++ fmtD maxAttempts ++ " attempts, last error: "
            ++ fmtS (if maxAttempts.toNat = 0 then none
                else attempt f s (maxAttempts.toNat - 1))),
          stateAfter f maxAttempts.toNat s,
          failedRounds d f maxAttempts.toNat 0 s
            ++ [Event.send ("The script has stopped due to an unrecoverable error :\n"
              ++ fmtS (if maxAttempts.toNat = 0 then none
                  else attempt f s (maxAttempts.toNat - 1))) false]⟩ := by
  simp [retry, retryLoop_failure d f maxAttempts.toNat 0 none s hf]

theorem two_mul_sum_succ (j : Nat) :
    2 * (∑ k in Finset.range j, ((k : Int) + 1)) = (j : Int) * (j + 1) := by
  induction j with
  | zero => simp
  | succ j ih =>
    rw [Finset.sum_range_succ, mul_add, ih]
    push_cast
    ring

/-! ### Lemmas on strings -/

theorem join_cons (x : String) (xs : List String) :
    String.join (x :: xs) = x ++ String.join xs := by
  apply String.ext
  simp [String.data_join]

theorem join_nil : String.join [] = "" := rfl

theorem append_ne_empty_of_right (a b : String) (hb : b ≠ "") : a ++ b ≠ "" := by
  intro h
  apply hb
  have hd := congrArg String.data h
  rw [String.data_append] at hd
  apply String.ext
  exact (List.append_eq_nil.mp hd).2

theorem trimSuffix_append (t suffix : String) : trimSuffix (t ++ suffix) suffix = t := by
  have hlen : (t ++ suffix).length - suffix.length = t.data.length := by
    rw [String.length_append]
    show t.data.length + suffix.length - suffix.length = t.data.length
    omega
  have hle : suffix.length ≤ (t ++ suffix).length := by
    rw [String.length_append]
    omega
  have hdrop : List.drop t.data.length (t ++ suffix).data = suffix.data := by
    rw [String.data_append, List.drop_left]
  have htake : List.take t.data.length (t ++ suffix).data = t.data := by
    rw [String.data_append, List.take_left]
  have hsuf : hasSuffix (t ++ suffix) suffix = true := by
    rw [hasSuffix, hlen, hdrop]
    rw [Bool.and_eq_true]
    exact ⟨decide_eq_true hle, beq_self_eq_true _⟩
  rw [trimSuffix, if_pos hsuf, hlen]
  apply String.ext
  exact htake

theorem intercalate_go_append (sep : String) (xs : List String) (acc : String) :
    String.intercalate.go acc sep xs ++ sep
      = acc ++ sep ++ String.join (xs.map (fun x => x ++ sep)) := by
  induction xs generalizing acc with
  | nil => simp [String.intercalate.go, join_nil]
  | cons x xs ih =>
    simp only [String.intercalate.go, ih, List.map_cons, join_cons, String.append_assoc]

theorem join_map_append_sep (sep x : String) (xs : List String) :
    String.join ((x :: xs).map (fun y => y ++ sep)) = sep.intercalate (x :: xs) ++ sep := by
  simp only [String.intercalate, intercalate_go_append, List.map_cons, join_cons,
    String.append_assoc]

theorem buildReportLoop_cons (index : line) (element : Int) (rest : List (line × Int))
    (acc : String) :
    buildReportLoop ((index, element) :: rest) acc
      = buildReportLoop rest (acc ++ (specSentence (index, element) ++ "\n")) := by
  have hliked : " has been liked " = " has been " ++ ("liked" ++ " ") := by decide
  have hed : "ed " = "ed" ++ " " := by decide
  rw [buildReportLoop]
  by_cases hlike : index.Action = "like"
  · simp only [hlike, if_true]
    congr 2
    simp only [specSentence, specVerb, hlike, if_true, specUnit]
    rw [hliked]
    simp only [String.append_assoc]
  · simp only [hlike, if_false]
    congr 2
    simp only [specSentence, specVerb, hlike, if_false, specUnit]
    rw [hed]
    simp only [String.append_assoc]

theorem buildReportLoop_eq (report : List (line × Int)) (acc : String) :
    buildReportLoop report acc
      = acc ++ String.join (report.map (fun entry => specSentence entry ++ "\n")) := by
  induction report generalizing acc with
  | nil => simp [buildReportLoop, join_nil]
  | cons entry rest ih =>
    obtain ⟨index, element⟩ := entry
    rw [buildReportLoop_cons, ih, List.map_cons, join_cons, String.append_assoc]

theorem buildLineLoop_eq (tag : String) (limits : List (String × Int))
    (report : List (line × Int)) (acc : String) :
    buildLineLoop tag limits report acc
      = acc ++ String.join
          ((entriesOfTag report tag).map (fun entry => specSegment limits entry ++ " - ")) := by
  induction report generalizing acc with
  | nil => simp [buildLineLoop, entriesOfTag, join_nil]
  | cons entry rest ih =>
    obtain ⟨index, element⟩ := entry
    by_cases htag : index.Tag = tag
    · simp only [buildLineLoop, htag, if_true, ih, entriesOfTag, List.filter_cons,
        decide_True, List.map_cons, join_cons, specSegment, String.append_assoc]
    · simp only [buildLineLoop, htag, if_false, ih, entriesOfTag, List.filter_cons,
        decide_False]
      simp

/-! ## The retry executor: claims C1 to C5 and C10 -/

/-- C1: when the first successful attempt of the operation is attempt `k`, with
`1 ≤ k ≤ maxAttempts`, `retry` returns nil, has invoked the operation exactly
`k` times (leaving it in the state after `k` invocations), its last effect is
that `k`-th invocation, so that no sleep follows the successful attempt, and it
never invokes `send`. -/
theorem retry_stops_at_first_success {σ : Type} (maxAttempts sleep : Int)
    (function : σ → GoError × σ) (s : σ) (k : Nat)
    (hk1 : 1 ≤ k) (hk : (k : Int) ≤ maxAttempts)
    (hfail : ∀ i, i + 1 < k → attempt function s i ≠ none)
    (hsucc : attempt function s (k - 1) = none) :
    (retry maxAttempts sleep function s).err = none
      ∧ calls (retry maxAttempts sleep function s).trace = k
      ∧ (retry maxAttempts sleep function s).st = stateAfter function k s
      ∧ (∃ before, (retry maxAttempts sleep function s).trace = before ++ [Event.call]
          ∧ calls before = k - 1)
      ∧ sends (retry maxAttempts sleep function s).trace = [] := by
  obtain ⟨j, rfl⟩ : ∃ j, k = j + 1 := ⟨k - 1, by omega⟩
  have hj : j < maxAttempts.toNat := by omega
  rw [retry_of_success maxAttempts sleep function s j hj
    (fun i hi => hfail i (by omega)) (by simpa using hsucc)]
  refine ⟨rfl, ?_, rfl, ⟨_, rfl, ?_⟩, ?_⟩
  · simp [calls_append, calls_failedRounds, calls]
  · simp [calls_failedRounds]
  · simp [sends_append, sends_failedRounds, sends]

/-- C1 at `maxAttempts = 3`, a delay of `5` and an operation that fails twice
and then succeeds (`k = 3`). -/
theorem retry_stops_at_first_success_witness :
    (1 ≤ 3 ∧ ((3 : Nat) : Int) ≤ 3 ∧ attempt flaky 0 0 ≠ none ∧ attempt flaky 0 1 ≠ none
        ∧ attempt flaky 0 (3 - 1) = none)
      ∧ ((retry 3 5 flaky 0).err = none
        ∧ calls (retry 3 5 flaky 0).trace = 3
        ∧ (retry 3 5 flaky 0).st = stateAfter flaky 3 0
        ∧ (∃ before, (retry 3 5 flaky 0).trace = before ++ [Event.call] ∧ calls before = 3 - 1)
        ∧ sends (retry 3 5 flaky 0).trace = []) :=
  ⟨by decide,
    retry_stops_at_first_success 3 5 flaky 0 3 (by decide) (by decide)
      (fun i hi => by
        have hi2 : i < 2 := by omega
        interval_cases i <;> decide)
      (by decide)⟩

/-- C2, refuted as stated for a negative delay: with `maxAttempts = 3`,
`d = -5` and an operation that fails twice and then succeeds (`j = 2`), every
`time.Sleep(-5)` returns at once, so the time slept is `0`, while
`d * j * (j + 1) / 2` is `-15`. -/
theorem retry_negative_delay_sleeps_no_time :
    ((2 : Nat) : Int) < 3 ∧ attempt flaky 0 0 ≠ none ∧ attempt flaky 0 1 ≠ none
      ∧ attempt flaky 0 2 = none
      ∧ (retry 3 (-5) flaky 0).trace
        = [Event.call, Event.sleep (-5), Event.logRetrying "timeout",
            Event.call, Event.sleep (-5), Event.sleep (-5), Event.logRetrying "timeout",
            Event.call]
      ∧ timeSlept (retry 3 (-5) flaky 0).trace = 0
      ∧ (-5 : Int) * ((2 : Nat) : Int) * (((2 : Nat) : Int) + 1) / 2 = -15
      ∧ timeSlept (retry 3 (-5) flaky 0).trace
        ≠ (-5 : Int) * ((2 : Nat) : Int) * (((2 : Nat) : Int) + 1) / 2 := by
  decide

/-- C2 as amended: for a delay `d ≥ 0`, when the operation fails on its first
`j` attempts and succeeds on attempt `j + 1`, with `j < maxAttempts`, the time
`retry` sleeps is `d * (1 + 2 + ... + j) = d * j * (j + 1) / 2`; the effects
are, for each failed attempt `i + 1` in turn, the invocation, `i + 1` sleeps of
`d` and the log line, and then the successful invocation; `retry` returns nil
after exactly `j + 1` invocations. -/
theorem retry_backoff_time_is_triangular {σ : Type} (maxAttempts d : Int)
    (function : σ → GoError × σ) (s : σ) (j : Nat)
    (hd : 0 ≤ d) (hj : (j : Int) < maxAttempts)
    (hfail : ∀ i, i < j → attempt function s i ≠ none)
    (hsucc : attempt function s j = none) :
    timeSlept (retry maxAttempts d function s).trace
        = d * (∑ k in Finset.range j, ((k : Int) + 1))
      ∧ timeSlept (retry maxAttempts d function s).trace = d * j * (j + 1) / 2
      ∧ (retry maxAttempts d function s).trace
        = ((List.range j).map (fun i =>
              Event.call :: (List.replicate (i + 1) (Event.sleep d)
                ++ [Event.logRetrying (fmtS (attempt function s i))]))).flatten
            ++ [Event.call]
      ∧ (retry maxAttempts d function s).err = none
      ∧ calls (retry maxAttempts d function s).trace = j + 1 := by
  have hj2 : j < maxAttempts.toNat := by omega
  rw [retry_of_success maxAttempts d function s j hj2 hfail hsucc]
  have hsum : timeSlept (failedRounds d function j 0 s ++ [Event.call])
      = d * (∑ k in Finset.range j, ((k : Int) + 1)) := by
    rw [timeSlept_append, timeSlept_failedRounds, pause_of_nonneg d hd]
    simp [timeSlept]
  refine ⟨hsum, ?_, ?_, rfl, ?_⟩
  · simp only [hsum]
    have h2 : d * (j : Int) * ((j : Int) + 1)
        = 2 * (d * (∑ k in Finset.range j, ((k : Int) + 1))) := by
      rw [mul_assoc, ← two_mul_sum_succ]
      ring
    rw [h2, Int.mul_ediv_cancel_left _ (by decide : (2 : Int) ≠ 0)]
  · simp only
    rw [failedRounds_eq_range]
    simp [failedRound]
  · simp [calls_append, calls_failedRounds, calls]

/-- C2 as amended, at `maxAttempts = 3`, `d = 5` and an operation that fails
twice and then succeeds (`j = 2`): the time slept is `5 * 1 + 5 * 2 = 15`,
after exactly three invocations. -/
theorem retry_backoff_time_is_triangular_witness :
    ((0 : Int) ≤ 5 ∧ ((2 : Nat) : Int) < 3 ∧ attempt flaky 0 0 ≠ none
        ∧ attempt flaky 0 1 ≠ none ∧ attempt flaky 0 2 = none)
      ∧ (timeSlept (retry 3 5 flaky 0).trace
          = 5 * (∑ k in Finset.range 2, ((k : Int) + 1))
        ∧ timeSlept (retry 3 5 flaky 0).trace = 5 * ((2 : Nat) : Int) * (((2 : Nat) : Int) + 1) / 2
        ∧ (retry 3 5 flaky 0).trace
          = ((List.range 2).map (fun i =>
                Event.call :: (List.replicate (i + 1) (Event.sleep 5)
                  ++ [Event.logRetrying (fmtS (attempt flaky 0 i))]))).flatten
              ++ [Event.call]
        ∧ (retry 3 5 flaky 0).err = none
        ∧ calls (retry 3 5 flaky 0).trace = 2 + 1)
      ∧ timeSlept (retry 3 5 flaky 0).trace = 5 * 1 + 5 * 2 :=
  ⟨by decide,
    retry_backoff_time_is_triangular 3 5 flaky 0 2 (by decide) (by decide)
      (fun i hi => by interval_cases i <;> decide)
      (by decide),
    by decide⟩

/-- C3: when the operation fails on each of its first `maxAttempts` attempts,
with `maxAttempts ≥ 1`, `retry` invokes it exactly `maxAttempts` times and
returns the error whose text is `After <maxAttempts> attempts, last error: <e>`
with `e` the text of the error of the final attempt. -/
theorem retry_exhausted_returns_last_error {σ : Type} (maxAttempts sleep : Int)
    (function : σ → GoError × σ) (s : σ)
    (h1 : 1 ≤ maxAttempts)
    (hfail : ∀ i, i < maxAttempts.toNat → attempt function s i ≠ none) :
    calls (retry maxAttempts sleep function s).trace = maxAttempts.toNat
      ∧ (retry maxAttempts sleep function s).st = stateAfter function maxAttempts.toNat s
      ∧ ∃ e, attempt function s (maxAttempts.toNat - 1) = some e
          ∧ (retry maxAttempts sleep function s).err
            = some ("After " ++ fmtD maxAttempts ++ " attempts, last error: " ++ e) := by
  have hn : maxAttempts.toNat ≠ 0 := by omega
  rw [retry_of_failure maxAttempts sleep function s hfail]
  refine ⟨?_, rfl, ?_⟩
  · simp [calls_append, calls_failedRounds, calls]
  · have hlast := hfail (maxAttempts.toNat - 1) (by omega)
    obtain ⟨e, he⟩ := Option.ne_none_iff_exists'.mp hlast
    exact ⟨e, he, by simp [hn, he, fmtS]⟩

/-- C3 at `maxAttempts = 2` and an operation whose first error is `first` and
whose second is `second`: the returned error carries `second`. -/
theorem retry_exhausted_returns_last_error_witness :
    (1 ≤ (2 : Int) ∧ attempt broken 0 0 ≠ none ∧ attempt broken 0 1 ≠ none)
      ∧ (calls (retry 2 5 broken 0).trace = (2 : Int).toNat
        ∧ (retry 2 5 broken 0).st = stateAfter broken (2 : Int).toNat 0
        ∧ ∃ e, attempt broken 0 ((2 : Int).toNat - 1) = some e
            ∧ (retry 2 5 broken 0).err
              = some ("After " ++ fmtD 2 ++ " attempts, last error: " ++ e))
      ∧ (retry 2 5 broken 0).err = some "After 2 attempts, last error: second" :=
  ⟨by decide,
    retry_exhausted_returns_last_error 2 5 broken 0 (by decide)
      (fun i hi => by
        have hi2 : i < 2 := hi
        interval_cases i <;> decide),
    by decide⟩

/-- C4: for `maxAttempts ≥ 1`, `retry` invokes `send` if and only if it
returns a non-nil error, and it returns a non-nil error if and only if every
one of the `maxAttempts` attempts fails; when it does, the `send` invocation is
the last effect before the return and the only `send`, with the success flag
false and the body `The script has stopped due to an unrecoverable error :`, a
line end and the text of the error of the last attempt. -/
theorem retry_sends_iff_exhausted {σ : Type} (maxAttempts sleep : Int)
    (function : σ → GoError × σ) (s : σ) (h1 : 1 ≤ maxAttempts) :
    (sends (retry maxAttempts sleep function s).trace ≠ []
        ↔ (retry maxAttempts sleep function s).err ≠ none)
      ∧ ((retry maxAttempts sleep function s).err ≠ none
        ↔ ∀ i, i < maxAttempts.toNat → attempt function s i ≠ none)
      ∧ ((retry maxAttempts sleep function s).err ≠ none →
        ∃ e before, attempt function s (maxAttempts.toNat - 1) = some e
          ∧ (retry maxAttempts sleep function s).trace
            = before ++ [Event.send
                ("The script has stopped due to an unrecoverable error :\n" ++ e) false]
          ∧ sends before = []
          ∧ sends (retry maxAttempts sleep function s).trace
            = [("The script has stopped due to an unrecoverable error :\n" ++ e, false)]) := by
  have hn : maxAttempts.toNat ≠ 0 := by omega
  rcases first_success_or_all_fail function s maxAttempts.toNat with ⟨j, hj, hf, hs⟩ | hall
  · rw [retry_of_success maxAttempts sleep function s j hj hf hs]
    have hsends : sends (failedRounds sleep function j 0 s ++ [Event.call]) = [] := by
      simp [sends_append, sends_failedRounds, sends]
    refine ⟨?_, ?_, ?_⟩
    · simp [hsends]
    · constructor
      · intro h
        exact absurd rfl h
      · intro h
        exact absurd hs (h j hj)
    · intro h
      exact absurd rfl h
  · have hlast := hall (maxAttempts.toNat - 1) (by omega)
    obtain ⟨e, he⟩ := Option.ne_none_iff_exists'.mp hlast
    rw [retry_of_failure maxAttempts sleep function s hall]
    simp only [hn, if_false, he, fmtS]
    refine ⟨?_, ?_, ?_⟩
    · simp [sends_append, sends_failedRounds, sends]
    · simp only [ne_eq, reduceCtorEq, not_false_eq_true, true_iff]
      exact hall
    · intro _
      exact ⟨e, _, rfl, rfl, sends_failedRounds sleep function _ 0 s,
        by simp [sends_append, sends_failedRounds, sends]⟩

/-- C4 at `maxAttempts = 2` and an operation that fails with `first` and then
with `second`: one `send`, flagged as a failure, carrying `second`. -/
theorem retry_sends_iff_exhausted_witness :
    1 ≤ (2 : Int)
      ∧ ((sends (retry 2 5 broken 0).trace ≠ [] ↔ (retry 2 5 broken 0).err ≠ none)
        ∧ ((retry 2 5 broken 0).err ≠ none
          ↔ ∀ i, i < (2 : Int).toNat → attempt broken 0 i ≠ none)
        ∧ ((retry 2 5 broken 0).err ≠ none →
          ∃ e before, attempt broken 0 ((2 : Int).toNat - 1) = some e
            ∧ (retry 2 5 broken 0).trace
              = before ++ [Event.send
                  ("The script has stopped due to an unrecoverable error :\n" ++ e) false]
            ∧ sends before = []
            ∧ sends (retry 2 5 broken 0).trace
              = [("The script has stopped due to an unrecoverable error :\n" ++ e, false)])) :=
  ⟨by decide, retry_sends_iff_exhausted 2 5 broken 0 (by decide)⟩

/-- C5, evaluated on the code: with `maxAttempts = 1`, a delay of `5` and an
operation that fails, `retry` sleeps once and logs that it is retrying after
the only attempt, and no invocation follows; with `maxAttempts = 2` and an
operation that fails on both attempts it sleeps twice more after the second
and final failed attempt, and the durations add up to `5 * (1 + 2) = 15`, not
to `5 * 1`. -/
theorem retry_sleeps_after_final_failure :
    (retry 1 5 broken 0).trace
        = [Event.call, Event.sleep 5, Event.logRetrying "first",
            Event.send "The script has stopped due to an unrecoverable error :\nfirst" false]
      ∧ totalSleep (retry 1 5 broken 0).trace = 5
      ∧ (retry 2 5 broken 0).trace
        = [Event.call, Event.sleep 5, Event.logRetrying "first",
            Event.call, Event.sleep 5, Event.sleep 5, Event.logRetrying "second",
            Event.send "The script has stopped due to an unrecoverable error :\nsecond" false]
      ∧ totalSleep (retry 2 5 broken 0).trace = 15
      ∧ totalSleep (retry 2 5 broken 0).trace
          ≠ 5 * (∑ k in Finset.range (2 - 1), ((k : Int) + 1)) := by
  refine ⟨by decide, by decide, by decide, by decide, ?_⟩
  have h : totalSleep (retry 2 5 broken 0).trace = 15 := by decide
  rw [h]
  simp

/-- The total of the sleeps when every attempt fails: the sum runs over all
`maxAttempts` attempts, the final one included. -/
theorem retry_exhausted_total_sleep {σ : Type} (maxAttempts d : Int)
    (function : σ → GoError × σ) (s : σ)
    (hfail : ∀ i, i < maxAttempts.toNat → attempt function s i ≠ none) :
    totalSleep (retry maxAttempts d function s).trace
      = d * (∑ k in Finset.range maxAttempts.toNat, ((k : Int) + 1)) := by
  rw [retry_of_failure maxAttempts d function s hfail, totalSleep_append,
    totalSleep_failedRounds]
  simp [totalSleep]

/-- C10: for `maxAttempts ≤ 0`, `retry` performs a single effect, one `send`
with the success flag false whose body names the nil error; so it never
invokes the operation and never sleeps; and it returns a non-nil error whose
last error is the nil error. -/
theorem retry_without_attempts {σ : Type} (maxAttempts sleep : Int)
    (function : σ → GoError × σ) (s : σ) (h : maxAttempts ≤ 0) :
    (retry maxAttempts sleep function s).trace
        = [Event.send
            ("The script has stopped due to an unrecoverable error :\n" ++ fmtS none) false]
      ∧ calls (retry maxAttempts sleep function s).trace = 0
      ∧ (∀ d, Event.sleep d ∉ (retry maxAttempts sleep function s).trace)
      ∧ (retry maxAttempts sleep function s).st = s
      ∧ (retry maxAttempts sleep function s).err
        = some ("After " ++ fmtD maxAttempts ++ " attempts, last error: " ++ fmtS none)
      ∧ fmtS none = "%!s(<nil>)" := by
  have hn : maxAttempts.toNat = 0 := by omega
  have hr : retry maxAttempts sleep function s
      = ⟨some ("After " ++ fmtD maxAttempts ++ " attempts, last error: " ++ fmtS none), s,
          [Event.send
            ("The script has stopped due to an unrecoverable error :\n" ++ fmtS none) false]⟩ := by
    simp [retry, hn, retryLoop]
  rw [hr]
  refine ⟨rfl, rfl, ?_, rfl, rfl, rfl⟩
  intro d
  simp

/-- C10 at `maxAttempts = -2`: no invocation, no sleep, one failure
notification, and the error `After -2 attempts, last error: %!s(<nil>)`. -/
theorem retry_without_attempts_witness :
    (-2 : Int) ≤ 0
      ∧ ((retry (-2) 5 broken 0).trace
          = [Event.send
              ("The script has stopped due to an unrecoverable error :\n" ++ fmtS none) false]
        ∧ calls (retry (-2) 5 broken 0).trace = 0
        ∧ (∀ d, Event.sleep d ∉ (retry (-2) 5 broken 0).trace)
        ∧ (retry (-2) 5 broken 0).st = 0
        ∧ (retry (-2) 5 broken 0).err
          = some ("After " ++ fmtD (-2) ++ " attempts, last error: " ++ fmtS none)
        ∧ fmtS none = "%!s(<nil>)") :=
  ⟨by decide, retry_without_attempts (-2) 5 broken 0 (by decide)⟩

/-! ## The report aggregator: claims C6 and C7 -/

/-- C6: for every report, in whatever order its entries are ranged over, the
text `buildReport` prints and sends is the concatenation of one line per entry,
the sentence of the entry followed by a line end, and nothing else; the
sentence reads `#<tag> has been <verb> <count> <unit>` with the verb `liked`
for `like` and the action followed by `ed` otherwise, and the unit `time`
exactly for the count one; ranging in another order permutes the lines; the
report with the one entry (travel, like) at 3 renders as
`#travel has been liked 3 times`. -/
theorem buildReport_one_sentence_per_entry (report : List (line × Int)) :
    buildReport report
        = [Event.fmtPrintln (String.join (report.map (fun entry => specSentence entry ++ "\n"))),
            Event.send (String.join (report.map (fun entry => specSentence entry ++ "\n"))) true]
      ∧ (report.map (fun entry => specSentence entry ++ "\n")).length = report.length
      ∧ (∀ other : List (line × Int), other.Perm report →
          (other.map (fun entry => specSentence entry ++ "\n")).Perm
            (report.map (fun entry => specSentence entry ++ "\n")))
      ∧ (∀ (tag action : String) (count : Int),
          specSentence (⟨tag, action⟩, count)
            = "#" ++ tag ++ " has been " ++ (if action = "like" then "liked" else action ++ "ed")
                ++ " " ++ fmtD count ++ " " ++ (if count = 1 then "time" else "times"))
      ∧ specVerb "like" = "liked" ∧ specVerb "follow" = "followed"
      ∧ specVerb "comment" = "commented"
      ∧ buildReport [(⟨"travel", "like"⟩, 3)]
        = [Event.fmtPrintln "#travel has been liked 3 times\n",
            Event.send "#travel has been liked 3 times\n" true] := by
  refine ⟨?_, by simp, fun other h => h.map _, fun _ _ _ => rfl, by decide, by decide,
    by decide, by decide⟩
  simp [buildReport, buildReportLoop_eq]

/-- C7: `buildLine` logs a progress line if and only if the report has an entry
whose tag is the current tag; the line it logs is the join, with ` - ` between
and none at the end, of the segments `<action> <count>/<limits[action]>` of the
entries of that tag, in iteration order, and of no other entry; without such an
entry it logs nothing. -/
theorem buildLine_renders_current_tag (report : List (line × Int))
    (limits : List (String × Int)) (tag : String) :
    (buildLine report limits tag ≠ [] ↔ ∃ entry, entry ∈ report ∧ entry.1.Tag = tag)
      ∧ ((∃ entry, entry ∈ report ∧ entry.1.Tag = tag) →
          buildLine report limits tag
            = [Event.logPrintln
                (" - ".intercalate ((entriesOfTag report tag).map (specSegment limits)))])
      ∧ ((¬ ∃ entry, entry ∈ report ∧ entry.1.Tag = tag) → buildLine report limits tag = [])
      ∧ (∀ entry, entry ∈ entriesOfTag report tag ↔ entry ∈ report ∧ entry.1.Tag = tag) := by
  have hmem : ∀ entry, entry ∈ entriesOfTag report tag ↔ entry ∈ report ∧ entry.1.Tag = tag := by
    intro entry
    simp [entriesOfTag, List.mem_filter]
  have hsome : (∃ entry, entry ∈ report ∧ entry.1.Tag = tag) →
      buildLine report limits tag
        = [Event.logPrintln
            (" - ".intercalate ((entriesOfTag report tag).map (specSegment limits)))] := by
    rintro ⟨entry, hentry⟩
    have hne : entriesOfTag report tag ≠ [] :=
      List.ne_nil_of_mem ((hmem entry).mpr hentry)
    obtain ⟨x, xs, hxs⟩ := List.exists_cons_of_ne_nil hne
    have hjoin : buildLineLoop tag limits report ""
        = " - ".intercalate ((entriesOfTag report tag).map (specSegment limits)) ++ " - " := by
      rw [buildLineLoop_eq, hxs, String.empty_append, List.map_cons (specSegment limits),
        ← join_map_append_sep]
      simp only [List.map_cons, List.map_map]
      rfl
    have hnonempty : buildLineLoop tag limits report "" ≠ "" := by
      rw [hjoin]
      exact append_ne_empty_of_right _ _ (by decide)
    rw [buildLine]
    simp only [hnonempty, ne_eq, not_false_eq_true, if_true]
    rw [hjoin, trimSuffix_append]
  have hnone : (¬ ∃ entry, entry ∈ report ∧ entry.1.Tag = tag) →
      buildLine report limits tag = [] := by
    intro h
    have hnil : entriesOfTag report tag = [] := by
      apply List.eq_nil_iff_forall_not_mem.mpr
      intro entry hin
      exact h ⟨entry, (hmem entry).mp hin⟩
    have hempty : buildLineLoop tag limits report "" = "" := by
      rw [buildLineLoop_eq, hnil]
      rfl
    simp [buildLine, hempty]
  refine ⟨?_, hsome, hnone, hmem⟩
  constructor
  · intro h
    by_contra hno
    exact h (hnone hno)
  · intro h
    rw [hsome h]
    simp

/-! ## Configuration loading: claim C8 -/

/-- C8, evaluated on the code: a configuration whose follow range `[0, 1000]`
is not a subset of its like range `[100, 200]` is loaded by `getConfig` without
an error, and the limits are stored as read, although the comments on
`followLowerLimit` and `commentLowerLimit` say that the range needs to be a
subset of the like interval; the same holds for a comment range `[50, 300]`. -/
theorem getConfig_accepts_unnested_ranges :
    ¬ limitsNested (limitsConfig 100 200 0 1000 100 200)
      ∧ getConfig false (readable (limitsConfig 100 200 0 1000 100 200))
        = Except.ok
            { likeLowerLimit := 100, likeUpperLimit := 200,
              followLowerLimit := 0, followUpperLimit := 1000,
              commentLowerLimit := 100, commentUpperLimit := 200, report := [] }
      ∧ ¬ limitsNested (limitsConfig 100 200 100 200 50 300)
      ∧ getConfig false (readable (limitsConfig 100 200 100 200 50 300))
        = Except.ok
            { likeLowerLimit := 100, likeUpperLimit := 200,
              followLowerLimit := 100, followUpperLimit := 200,
              commentLowerLimit := 50, commentUpperLimit := 300, report := [] } := by
  refine ⟨?_, rfl, ?_, rfl⟩
  · intro h
    have h0 := h.1 0 (by decide) (by decide)
    exact absurd h0.1 (by decide)
  · intro h
    have h0 := h.2 50 (by decide) (by decide)
    exact absurd h0.1 (by decide)

/-- The only failure of `getConfig` is a configuration file that cannot be
read. -/
theorem getConfig_fails_only_on_unreadable_file (dev : Bool)
    (files : String → Except String (String → Int)) :
    (∃ msg, getConfig dev files = Except.error msg)
      ↔ ∃ err, files (configFile dev) = Except.error err := by
  unfold getConfig
  cases hf : files (configFile dev) with
  | error err => simp
  | ok getInt => simp

/-! ## Mode dispatch: claim C9 -/

/-- C9: for every value of the flags `unfollow`, `run` and `randtag`, `main`
starts at most one of the run modes; it calls `syncFollowers` exactly when
`unfollow` is set, `loopTags` exactly when `unfollow` is unset, `run` is set
and `randtag` is unset, `loopTagsMulti` exactly when `unfollow` is unset and
`run` and `randtag` are set; so `syncFollowers` never runs together with a
tag-iteration mode. -/
theorem main_starts_at_most_one_mode (unfollow run randtag : Bool) :
    ((main unfollow run randtag).filter Step.isRunMode).length ≤ 1
      ∧ (Step.syncFollowers ∈ main unfollow run randtag ↔ unfollow = true)
      ∧ (Step.loopTags ∈ main unfollow run randtag
          ↔ unfollow = false ∧ run = true ∧ randtag = false)
      ∧ (Step.loopTagsMulti ∈ main unfollow run randtag
          ↔ unfollow = false ∧ run = true ∧ randtag = true)
      ∧ ((main unfollow run randtag).filter Step.isRunMode = []
          ↔ unfollow = false ∧ run = false)
      ∧ ¬ (Step.syncFollowers ∈ main unfollow run randtag
            ∧ (Step.loopTags ∈ main unfollow run randtag
              ∨ Step.loopTagsMulti ∈ main unfollow run randtag)) := by
  cases unfollow <;> cases run <;> cases randtag <;> decide

end Instabot
